import Mathlib

/-!
Verification of the xDS file provisioner (package `file`) and the iptables
rule constructor (package `iptables`) of apisix-mesh-agent.

The shallow embedding models:
* the target data model (`Route`, `Upstream`, `Manifest`) and the manifest
  diff (`Manifest.DiffFrom`, `Manifest.events`, `Manifest.size`) — these live
  in `pkg/provisioner/util` and `pkg/types`, outside the provided sources, so
  they are modelled from the specification text;
* `generateEvents`, `generateEventsFromDiscoveryResponseV3` (including its
  EDS/CDS merge loop) and `handleFileEvent`, translated statement by
  statement from the provisioner source. A Go slice index out of range
  (runtime panic) is modelled by returning `none`;
* `insertInboundRules` and `split` from the iptables command.
-/

namespace ApisixMeshAgent

/-- Modelled from the spec: an Upstream target resource from `pkg/types/apisix`
(not under the provided sources) — identified by a Name, carrying a list of
Nodes (endpoint addresses); `other` stands opaquely for all its remaining
protobuf fields. -/
structure Upstream where
  name : String
  nodes : List String
  other : String
deriving DecidableEq

/-- Modelled from the spec: a Route target resource from `pkg/types/apisix`
(not under the provided sources) — identified by a Name; `other` stands
opaquely for all its remaining protobuf fields. -/
structure Route where
  name : String
  other : String
deriving DecidableEq

/-- An event object is a Route or an Upstream. -/
inductive Object where
  | route (r : Route)
  | upstream (u : Upstream)
deriving DecidableEq

/-- Event types from `pkg/types`: Add, Delete, Update. -/
inductive EventType where
  | add
  | delete
  | update
deriving DecidableEq

/-- An event as carried on the provisioner channel. -/
structure Event where
  type : EventType
  obj : Object
deriving DecidableEq

/-- Modelled from the spec: `util.Manifest` (from `pkg/provisioner/util`, not
under the provided sources) — an ordered collection of Routes and an ordered
collection of Upstreams for one Source. -/
structure Manifest where
  routes : List Route
  upstreams : List Upstream
deriving DecidableEq

/-- Modelled from the spec: `Manifest.Size` — the number of resources in the
manifest. -/
def Manifest.size (m : Manifest) : Nat :=
  m.routes.length + m.upstreams.length

/-- Modelled from the spec: `Manifest.Events t` — one event of type `t` per
resource of the manifest. -/
def Manifest.events (m : Manifest) (t : EventType) : List Event :=
  m.routes.map (fun r => ⟨t, .route r⟩) ++ m.upstreams.map (fun u => ⟨t, .upstream u⟩)

/-- Find a resource by name in a list (first match). -/
def findByName {α : Type} (nm : α → String) (l : List α) (n : String) : Option α :=
  l.find? (fun x => nm x == n)

/-- Modelled from the spec: one-kind diff by Name. A resource present only in
`old` is deleted; present only in `new` is added; present in both with
identical content is ignored; present in both with differing content is
updated. Returns `(added, deleted, updated)`. -/
def diffList {α : Type} [DecidableEq α] (nm : α → String) (old new : List α) :
    List α × List α × List α :=
  let added := new.filter (fun n => (findByName nm old (nm n)).isNone)
  let deleted := old.filter (fun o => (findByName nm new (nm o)).isNone)
  let updated := new.filter (fun n =>
    match findByName nm old (nm n) with
    | some o => decide (o ≠ n)
    | none => false)
  (added, deleted, updated)

/-- Modelled from the spec: `old.DiffFrom new` — the per-kind diff of two
manifests, returning `(added, deleted, updated)` manifests. -/
def Manifest.DiffFrom (old new : Manifest) : Manifest × Manifest × Manifest :=
  let rdiff := diffList Route.name old.routes new.routes
  let udiff := diffList Upstream.name old.upstreams new.upstreams
  (⟨rdiff.1, udiff.1⟩, ⟨rdiff.2.1, udiff.2.1⟩, ⟨rdiff.2.2, udiff.2.2⟩)

/-- The provisioner's mutable state: the State Table
(`state : map[string]*util.Manifest`, where the outer `Option` is key
presence and the inner `Option` is pointer nil-ness) and the EDS
Cross-Reference Table (`updatedUpstreamsFromEDS : map[string][]*Upstream`,
where a missing key reads as the empty list, like a nil Go slice). -/
structure ProvState where
  state : String → Option (Option Manifest)
  eds : String → List Upstream

/-- Point update of a string-keyed map. -/
def mapUpdate {β : Type} (m : String → β) (k : String) (v : β) : String → β :=
  fun x => if x = k then v else m x

/-- Size of a possibly-nil manifest pointer. -/
def optSize : Option Manifest → Nat
  | none => 0
  | some m => m.size

/-- Events of a possibly-nil manifest pointer. -/
def optEvents : Option Manifest → EventType → List Event
  | none, _ => []
  | some m, t => m.events t

/-- `generateEvents` from the provisioner source: classify `rmo`/`rm` into
added/deleted/updated, unconditionally store `rm` in the State Table for
`filename`, and return the Add events, then Delete events, then Update
events (or no events when the diff is empty). -/
def generateEvents (p : ProvState) (filename : String) (rmo rm : Option Manifest) :
    ProvState × List Event :=
  let diffed : Option Manifest × Option Manifest × Option Manifest :=
    match rmo, rm with
    | none, _ => (rm, none, none)
    | some _, none => (none, rmo, none)
    | some o, some n =>
      let d := o.DiffFrom n
      (some d.1, some d.2.1, some d.2.2)
  let added := diffed.1
  let deleted := diffed.2.1
  let updated := diffed.2.2
  let count := optSize added + optSize deleted + optSize updated
  let events :=
    if count = 0 then []
    else optEvents added .add ++ optEvents deleted .delete ++ optEvents updated .update
  ({ p with state := mapUpdate p.state filename (some rm) }, events)

/-- The added/deleted/updated classification performed by `generateEvents`:
old absent makes everything in `rm` added, new absent makes everything in
`rmo` deleted, otherwise the manifests are diffed. -/
def diffTriple (rmo rm : Option Manifest) :
    Option Manifest × Option Manifest × Option Manifest :=
  match rmo, rm with
  | none, _ => (rm, none, none)
  | some _, none => (none, rmo, none)
  | some o, some n =>
    let d := o.DiffFrom n
    (some d.1, some d.2.1, some d.2.2)

/-- The total number of resources in the three parts of the diff; the diff
of a pass is empty exactly when this count is zero. -/
def diffCount (rmo rm : Option Manifest) : Nat :=
  optSize (diffTriple rmo rm).1 + optSize (diffTriple rmo rm).2.1
    + optSize (diffTriple rmo rm).2.2

/-- The EDS/CDS merge loop of `generateEventsFromDiscoveryResponseV3`,
translated literally from the source. For each index `i` into `ups`: the
inner `for j` loop evaluates `rm.Upstreams[i].Name == ups[i].Name` (note:
index `i`, the inner counter `j` is unused), so when `rm.Upstreams` is
non-empty it reads `rm.Upstreams[i]`, which panics (modelled as `none`)
when `i ≥ len(rm.Upstreams)`; on a match the entry at `i` is overwritten
and the loop breaks, otherwise `ups[i]` is kept (Go's in-place slice
compaction to `ups[:slot]`). Returns the updated manifest upstream list and
the kept (EDS-only) list. -/
def mergeCLAAux : List Upstream → List Upstream → Nat →
    Option (List Upstream × List Upstream)
  | rmUps, [], _ => some (rmUps, [])
  | rmUps, u :: more, i =>
    if rmUps.length = 0 then
      match mergeCLAAux rmUps more (i + 1) with
      | none => none
      | some (r, kept) => some (r, u :: kept)
    else if h2 : i < rmUps.length then
      if rmUps[i].name = u.name then
        mergeCLAAux (rmUps.set i u) more (i + 1)
      else
        match mergeCLAAux rmUps more (i + 1) with
        | none => none
        | some (r, kept) => some (r, u :: kept)
    else none

/-- The merge of one cluster-load-assignment resource's upstream list `ups`
into the manifest upstream list `rmUps`, starting the loop at index 0. -/
def mergeCLA (rmUps ups : List Upstream) : Option (List Upstream × List Upstream) :=
  mergeCLAAux rmUps ups 0

/-- A resource of a DiscoveryResponse, after the type-URL dispatch and the
external Adaptor conversion (the Adaptor is out of scope; a resource is
represented by the target-resource list its conversion yields). -/
inductive Resource where
  | routeConfiguration (routes : List Route)
  | cluster (ups : List Upstream)
  | clusterLoadAssignment (ups : List Upstream)
  | unrecognized
deriving DecidableEq

/-- The resource loop of `generateEventsFromDiscoveryResponseV3`: build the
manifest `rm` and the EDS-only list `updatedUpstreams` from the response's
resources in order. `none` models the merge loop's index-out-of-range
panic. -/
def processResources : List Resource → Manifest → List Upstream →
    Option (Manifest × List Upstream)
  | [], rm, updated => some (rm, updated)
  | res :: more, rm, updated =>
    match res with
    | .routeConfiguration rs =>
      processResources more { rm with routes := rm.routes ++ rs } updated
    | .cluster us =>
      processResources more { rm with upstreams := rm.upstreams ++ us } updated
    | .clusterLoadAssignment us =>
      match mergeCLA rm.upstreams us with
      | none => none
      | some (ups', kept) =>
        processResources more { rm with upstreams := ups' } (updated ++ kept)
    | .unrecognized =>
      processResources more rm updated

/-- `generateEventsFromDiscoveryResponseV3` from the source: process the
resources, diff the resulting manifest against the State Table entry, and
when the pass produced EDS-only upstreams append one Update event per such
upstream to the batch and append them to the EDS Cross-Reference Table
entry for this file. -/
def generateEventsFromDiscoveryResponseV3 (p : ProvState) (filename : String)
    (resources : List Resource) : Option (ProvState × List Event) :=
  match processResources resources ⟨[], []⟩ [] with
  | none => none
  | some (rm, updatedUpstreams) =>
    let gen := generateEvents p filename ((p.state filename).join) (some rm)
    let p1 := gen.1
    let evs := gen.2
    if updatedUpstreams.length > 0 then
      let recorded := p1.eds filename ++ updatedUpstreams
      some ({ p1 with eds := mapUpdate p1.eds filename recorded },
            evs ++ updatedUpstreams.map (fun u => ⟨.update, .upstream u⟩))
    else
      some (p1, evs)

/-- A file event's logical kind: create and modify collapse to `write`. -/
inductive FileOp where
  | write
  | remove
deriving DecidableEq

/-- Outcome of reading and decoding the file on a write event (both are
external effects): read failure, decode failure, or a parsed
DiscoveryResponse. -/
inductive ParseResult where
  | readError
  | decodeError
  | ok (resources : List Resource)
deriving DecidableEq

/-- Result of one `handleFileEvent` run: the new provisioner state and the
batch sent to the event channel (`none` when nothing is dispatched). -/
structure StepResult where
  st : ProvState
  batch : Option (List Event)

/-- The final dispatch step of `handleFileEvent`: a batch goes to the
channel only when it is non-empty. -/
def dispatch (p : ProvState) (events : List Event) : StepResult :=
  if events.length > 0 then ⟨p, some events⟩ else ⟨p, none⟩

/-- `handleFileEvent` from the source. Write events: a read or decode
failure returns with no state change and no events; otherwise the batch
comes from `generateEventsFromDiscoveryResponseV3`. Remove events: when the
State Table has an entry, diff it against absent, emit one Update event per
recorded EDS-only upstream with its node list cleared, and drop the EDS
record. `none` models the merge loop's panic propagating out. -/
def handleFileEvent (p : ProvState) (name : String) (op : FileOp) (pr : ParseResult) :
    Option StepResult :=
  match op with
  | .write =>
    match pr with
    | .readError => some ⟨p, none⟩
    | .decodeError => some ⟨p, none⟩
    | .ok resources =>
      match generateEventsFromDiscoveryResponseV3 p name resources with
      | none => none
      | some (p', events) => some (dispatch p' events)
  | .remove =>
    match p.state name with
    | none => some ⟨p, none⟩
    | some rmo =>
      let gen := generateEvents p name rmo none
      let p1 := gen.1
      let events := gen.2 ++ (p1.eds name).map (fun u => ⟨.update, .upstream { u with nodes := [] }⟩)
      let p2 := { p1 with eds := mapUpdate p1.eds name [] }
      some (dispatch p2 events)

/-- Modelled from the spec: chain-name constants from `pkg/types` (not under
the provided sources); their exact values are irrelevant to the rules'
structure. -/
def RedirectChain : String := "APISIX_REDIRECT"

/-- Modelled from the spec: the inbound chain name from `pkg/types`. -/
def InboundChain : String := "APISIX_INBOUND"

/-- Modelled from the spec: the PREROUTING chain name from `pkg/types`. -/
def PreRoutingChain : String := "PREROUTING"

/-- One iptables rule as appended by `AppendRuleV4(chain, table, args...)`. -/
structure Rule where
  chain : String
  table : String
  args : List String
deriving DecidableEq

/-- `filterEmpty` from the iptables command: drop empty strings. -/
def filterEmpty (strs : List String) : List String :=
  strs.filter (fun s => !(s == ""))

/-- `split` from the iptables command: nil for the empty string, otherwise
split on commas and drop empty pieces. -/
def split (s : String) : List String :=
  if s = "" then [] else filterEmpty (s.splitOn ",")

/-- `insertInboundRules` from the iptables command, as the list of rules it
appends, in order, as a function of the `--inbound-ports` value. -/
def insertInboundRules (inboundPortsInclude : String) : List Rule :=
  if inboundPortsInclude = "" then []
  else
    ⟨PreRoutingChain, "nat", ["-p", "tcp", "-j", InboundChain]⟩ ::
    (if inboundPortsInclude = "*" then
      [⟨InboundChain, "nat", ["-p", "tcp", "--dport", "22", "-j", "RETURN"]⟩,
       ⟨InboundChain, "nat", ["-p", "tcp", "-j", RedirectChain]⟩]
    else
      (split inboundPortsInclude).map (fun port =>
        ⟨InboundChain, "nat", ["-p", "tcp", "--dport", port, "-j", RedirectChain]⟩))

/-! Sample resources and states used as concrete inputs. -/

/-- Cluster-derived upstream svcA with no nodes. -/
def svcA : Upstream := ⟨"svcA", [], ""⟩

/-- Load-assignment-derived upstream svcA with nodes [n1]. -/
def svcA1 : Upstream := ⟨"svcA", ["n1"], ""⟩

/-- Cluster-derived upstream svcB with no nodes. -/
def svcB : Upstream := ⟨"svcB", [], ""⟩

/-- Load-assignment-derived upstream svcB with nodes [n1]. -/
def svcB1 : Upstream := ⟨"svcB", ["n1"], ""⟩

/-- Load-assignment-derived upstream svcX with nodes [n2]. -/
def svcX : Upstream := ⟨"svcX", ["n2"], ""⟩

/-- Load-assignment-derived upstream svcY with nodes [n3]. -/
def svcY : Upstream := ⟨"svcY", ["n3"], ""⟩

/-- A sample route. -/
def rA : Route := ⟨"routeA", ""⟩

/-- The freshly initialized provisioner state: both tables empty. -/
def emptyProv : ProvState := ⟨fun _ => none, fun _ => []⟩

/-- A state whose EDS Cross-Reference Table already records svcX for "f". -/
def edsPriorProv : ProvState := ⟨fun _ => none, fun x => if x = "f" then [svcX] else []⟩

/-- The result of the EDS-recording pass run from `edsPriorProv`. -/
def c2Run : Option (ProvState × List Event) :=
  generateEventsFromDiscoveryResponseV3 emptyProv "f" [.clusterLoadAssignment [svcY]]

/-- The pair of state and batch that the pass of `c2Run` yields. -/
def c2R : ProvState × List Event := c2Run.getD (emptyProv, [])

/-- A sample manifest with one route and one upstream. -/
def c8M : Manifest := ⟨[rA], [svcA]⟩

/-- A state whose State Table maps "f" to `c8M`. -/
def c8P : ProvState := ⟨fun x => if x = "f" then some (some c8M) else none, fun _ => []⟩

/-- A state whose State Table maps "f" to `c8M` and whose EDS table records
svcX for "f". -/
def c9P : ProvState :=
  ⟨fun x => if x = "f" then some (some c8M) else none,
   fun x => if x = "f" then [svcX] else []⟩

/-- The run of `handleFileEvent` on a write of one Cluster resource from the
initial state. -/
def c7Run : Option StepResult := handleFileEvent emptyProv "f" .write (.ok [.cluster [svcA]])

/-- The step result that the run of `c7Run` yields. -/
def c7R : StepResult := c7Run.getD ⟨emptyProv, none⟩

/-! Helper lemmas. -/

/-- A manifest of size zero has no events. -/
theorem events_nil_of_size_zero (m : Manifest) (t : EventType) (h : m.size = 0) :
    m.events t = [] := by
  have h' : m.routes.length + m.upstreams.length = 0 := h
  have hr : m.routes = [] := List.length_eq_zero.mp (Nat.eq_zero_of_add_eq_zero_right h')
  have hu : m.upstreams = [] := List.length_eq_zero.mp (Nat.eq_zero_of_add_eq_zero_left h')
  simp [Manifest.events, hr, hu]

/-- Priority of an event type in a batch: Add first, then Delete, then
Update. -/
def rank : EventType → Nat
  | .add => 0
  | .delete => 1
  | .update => 2

/-- A batch is ordered when event-type ranks are non-decreasing along it. -/
def OrderedBatch (evs : List Event) : Prop :=
  evs.Pairwise (fun a b => rank a.type ≤ rank b.type)

/-- Ranks are at most 2. -/
theorem rank_le_two (t : EventType) : rank t ≤ 2 := by
  cases t <;> simp [rank]

/-- Every event of `Manifest.events m t` has type `t`. -/
theorem type_of_mem_events (m : Manifest) (t : EventType) (e : Event)
    (h : e ∈ m.events t) : e.type = t := by
  simp only [Manifest.events, List.mem_append, List.mem_map] at h
  rcases h with ⟨r, _, rfl⟩ | ⟨u, _, rfl⟩ <;> rfl

/-- Every event of `optEvents o t` has type `t`. -/
theorem type_of_mem_optEvents (o : Option Manifest) (t : EventType) (e : Event)
    (h : e ∈ optEvents o t) : e.type = t := by
  cases o with
  | none => simp [optEvents] at h
  | some m => exact type_of_mem_events m t e h

/-- A list of events of one single type is ordered. -/
theorem orderedBatch_of_const_type (l : List Event) (t : EventType)
    (h : ∀ e ∈ l, e.type = t) : OrderedBatch l := by
  apply List.pairwise_of_forall_mem_list
  intro a ha b hb
  rw [h a ha, h b hb]

/-- Appending update events (of any object shape) to an ordered batch keeps
it ordered. -/
theorem orderedBatch_append_updates (l : List Event) (us : List Upstream)
    (g : Upstream → Object) (h : OrderedBatch l) :
    OrderedBatch (l ++ us.map (fun u => ⟨.update, g u⟩)) := by
  refine List.pairwise_append.mpr ⟨h, ?_, ?_⟩
  · apply orderedBatch_of_const_type _ .update
    intro e he
    obtain ⟨u, _, rfl⟩ := List.mem_map.mp he
    rfl
  · intro a _ b hb
    obtain ⟨u, _, rfl⟩ := List.mem_map.mp hb
    exact rank_le_two a.type

/-- The concatenation Add events ++ Delete events ++ Update events is
ordered. -/
theorem orderedBatch_adu (a d u : Option Manifest) :
    OrderedBatch (optEvents a .add ++ optEvents d .delete ++ optEvents u .update) := by
  rw [List.append_assoc]
  refine List.pairwise_append.mpr ⟨?_, List.pairwise_append.mpr ⟨?_, ?_, ?_⟩, ?_⟩
  · exact orderedBatch_of_const_type _ .add (type_of_mem_optEvents a .add)
  · exact orderedBatch_of_const_type _ .delete (type_of_mem_optEvents d .delete)
  · exact orderedBatch_of_const_type _ .update (type_of_mem_optEvents u .update)
  · intro x hx y hy
    rw [type_of_mem_optEvents d .delete x hx, type_of_mem_optEvents u .update y hy]
    decide
  · intro x hx y hy
    rw [type_of_mem_optEvents a .add x hx]
    exact Nat.zero_le _
/-- The batch of `generateEvents` is ordered. -/
theorem generateEvents_ordered (p : ProvState) (f : String) (rmo rm : Option Manifest) :
    OrderedBatch (generateEvents p f rmo rm).2 := by
  unfold generateEvents
  dsimp only
  split
  · exact List.Pairwise.nil
  · exact orderedBatch_adu _ _ _

/-- The state component of `generateEvents` is the input state with the
State Table entry for `filename` overwritten by `rm`. -/
theorem generateEvents_fst (p : ProvState) (f : String) (rmo rm : Option Manifest) :
    (generateEvents p f rmo rm).1 = { p with state := mapUpdate p.state f (some rm) } := by
  cases rmo <;> cases rm <;> rfl

/-- A name search over a list that contains the element itself succeeds. -/
theorem findByName_ne_none_of_mem {α : Type} (nm : α → String) (l : List α) (n : α)
    (hn : n ∈ l) : findByName nm l (nm n) ≠ none := by
  intro h
  rw [findByName, List.find?_eq_none] at h
  exact h n hn (by simp)

/-- When the mapped names of `l` are distinct, searching `l` for the name of
one of its members finds exactly that member. -/
theorem findByName_self {α : Type} (nm : α → String) (l : List α) (n : α)
    (hdup : (l.map nm).Nodup) (hn : n ∈ l) : findByName nm l (nm n) = some n := by
  cases hf : findByName nm l (nm n) with
  | none => exact absurd hf (findByName_ne_none_of_mem nm l n hn)
  | some o =>
    have ho : o ∈ l := List.mem_of_find?_eq_some hf
    have hpo := List.find?_some hf
    have heq : nm o = nm n := by simpa using hpo
    rw [List.inj_on_of_nodup_map hdup ho hn heq]

/-- Diffing a duplicate-name-free resource list against itself is empty. -/
theorem diffList_self {α : Type} [DecidableEq α] (nm : α → String) (l : List α)
    (hdup : (l.map nm).Nodup) : diffList nm l l = ([], [], []) := by
  simp only [diffList, Prod.mk.injEq]
  refine ⟨?_, ?_, ?_⟩ <;> rw [List.filter_eq_nil_iff] <;> intro a ha <;>
    rw [findByName_self nm l a hdup ha] <;> simp

/-- `generateEvents` written through the named diff classification: the
state is updated unconditionally and the batch is empty exactly when the
diff count is zero, otherwise the Add, Delete and Update blocks of the
classified diff. -/
theorem generateEvents_eq (p : ProvState) (f : String) (rmo rm : Option Manifest) :
    generateEvents p f rmo rm =
      ({ p with state := mapUpdate p.state f (some rm) },
       if diffCount rmo rm = 0 then []
       else optEvents (diffTriple rmo rm).1 .add
         ++ optEvents (diffTriple rmo rm).2.1 .delete
         ++ optEvents (diffTriple rmo rm).2.2 .update) := by
  cases rmo <;> cases rm <;> rfl

/-- On a remove event for a source present in the State Table,
`handleFileEvent` stores the absent manifest, clears the EDS record, and
dispatches the diff events followed by one node-clearing Update event per
recorded EDS-only upstream. -/
theorem handleFileEvent_remove (p : ProvState) (f : String) (pr : ParseResult)
    (rmo : Option Manifest) (hstate : p.state f = some rmo) :
    handleFileEvent p f .remove pr =
      some (dispatch
        { state := mapUpdate p.state f (some none), eds := mapUpdate p.eds f [] }
        ((generateEvents p f rmo none).2
          ++ (p.eds f).map (fun u => ⟨.update, .upstream { u with nodes := [] }⟩))) := by
  unfold handleFileEvent
  dsimp only
  rw [hstate]
  rfl

/-! The claims. -/

/-- Claim C1 — code bug. The claim says a load-assignment-derived Upstream
whose Name matches some entry of the manifest's upstream list replaces that
entry in place. Evaluating the code at the batch Cluster(svcA),
Cluster(svcB), ClusterLoadAssignment(svcB, nodes=[n1]) shows otherwise: the
merge loop compares `rm.Upstreams[i]` against `ups[i]` with the same index
`i` (the inner loop counter `j` is never used), so it compares svcB1 only
against svcA, leaves the manifest entry svcB unreplaced, and routes svcB1
into the EDS-only list even though a Name match exists in the manifest. -/
theorem C1_merge_skips_name_match :
    processResources [.cluster [svcA, svcB], .clusterLoadAssignment [svcB1]] ⟨[], []⟩ []
        = some (⟨[], [svcA, svcB]⟩, [svcB1])
      ∧ svcB1.name = svcB.name ∧ svcB1 ≠ svcB := by decide

/-- Claim C3 — code bug. The claim says the merge loop is total and never
indexes the manifest upstream list out of range. But with manifest upstream
list [svcA] (length 1) and a load-assignment list [svcX, svcY] (length 2),
iteration `i = 1` evaluates `rm.Upstreams[1].Name` inside the inner loop,
an index out of range (a Go runtime panic), modelled as `none`. -/
theorem C3_merge_out_of_range :
    processResources [.cluster [svcA], .clusterLoadAssignment [svcX, svcY]] ⟨[], []⟩ [] = none
      ∧ handleFileEvent emptyProv "f" .write
          (.ok [.cluster [svcA], .clusterLoadAssignment [svcX, svcY]]) = none :=
  ⟨rfl, rfl⟩

/-- Claim C4 — confirmed. On a write event whose file read fails or whose
bytes fail to decode, `handleFileEvent` returns with the whole provisioner
state (State Table and EDS Cross-Reference Table) unchanged and dispatches
no batch. -/
theorem C4_parse_atomicity (p : ProvState) (f : String) :
    handleFileEvent p f .write .readError = some ⟨p, none⟩
      ∧ handleFileEvent p f .write .decodeError = some ⟨p, none⟩ :=
  ⟨rfl, rfl⟩

/-- Claim C6 — confirmed. `generateEvents` unconditionally replaces the
State Table entry of the source with the new manifest `rm`, including
storing the absent (nil) manifest on removal, whatever the diff was. -/
theorem C6_state_replacement (p : ProvState) (f : String) (rmo rm : Option Manifest) :
    (generateEvents p f rmo rm).1.state f = some rm := by
  rw [generateEvents_fst]
  simp [mapUpdate]

/-- Claim C10 — confirmed. With `--inbound-ports` empty, `insertInboundRules`
appends no rules at all; with the wildcard `*` it appends the PREROUTING
jump, then a rule RETURNing TCP traffic to destination port 22 (SSH), and
only after it the rule redirecting all remaining TCP traffic to the
redirect chain, so SSH is never redirected. -/
theorem C10_wildcard_ssh_exclusion :
    insertInboundRules "" = []
      ∧ insertInboundRules "*" =
        [⟨PreRoutingChain, "nat", ["-p", "tcp", "-j", InboundChain]⟩,
         ⟨InboundChain, "nat", ["-p", "tcp", "--dport", "22", "-j", "RETURN"]⟩,
         ⟨InboundChain, "nat", ["-p", "tcp", "-j", RedirectChain]⟩] :=
  ⟨rfl, rfl⟩

/-- Claim C5 — confirmed. When the prior manifest is absent and the new one
present, the batch of `generateEvents` is exactly one Add event per resource
of the new manifest (hence no Delete or Update events); when the prior
manifest is present and the new one absent, it is exactly one Delete event
per resource of the prior manifest. -/
theorem C5_diff_boundary (p : ProvState) (f : String) (m : Manifest) :
    (generateEvents p f none (some m)).2 = m.events EventType.add
      ∧ (generateEvents p f (some m) none).2 = m.events EventType.delete := by
  constructor
  · rcases Nat.eq_zero_or_pos m.size with h | h
    · simp [generateEvents, optSize, optEvents, h, events_nil_of_size_zero m _ h]
    · have h' : m.size ≠ 0 := Nat.pos_iff_ne_zero.mp h
      simp [generateEvents, optSize, optEvents, h']
  · rcases Nat.eq_zero_or_pos m.size with h | h
    · simp [generateEvents, optSize, optEvents, h, events_nil_of_size_zero m _ h]
    · have h' : m.size ≠ 0 := Nat.pos_iff_ne_zero.mp h
      simp [generateEvents, optSize, optEvents, h']

/-- The batch returned by `generateEventsFromDiscoveryResponseV3` is
ordered: the diff events (Add, Delete, Update blocks) followed by EDS-only
Update events. -/
theorem genEDRV3_batch_ordered (p : ProvState) (f : String) (rs : List Resource)
    (p' : ProvState) (events : List Event)
    (h : generateEventsFromDiscoveryResponseV3 p f rs = some (p', events)) :
    OrderedBatch events := by
  unfold generateEventsFromDiscoveryResponseV3 at h
  cases hp : processResources rs ⟨[], []⟩ [] with
  | none => rw [hp] at h; exact absurd h (by simp)
  | some v =>
    obtain ⟨rm, U⟩ := v
    rw [hp] at h
    dsimp only at h
    by_cases hU : U.length > 0
    · rw [if_pos hU] at h
      have h2 := congrArg Prod.snd (Option.some.inj h)
      dsimp at h2
      rw [← h2]
      exact orderedBatch_append_updates _ _ Object.upstream
        (generateEvents_ordered p f ((p.state f).join) (some rm))
    · rw [if_neg hU] at h
      have h2 := congrArg Prod.snd (Option.some.inj h)
      dsimp at h2
      rw [← h2]
      exact generateEvents_ordered p f ((p.state f).join) (some rm)

/-- Claim C7 — confirmed. Every batch dispatched by `handleFileEvent` is
ordered: all Add events precede all Delete events, which precede all Update
events (EDS-only and node-clearing Update events included, appended at the
end). -/
theorem C7_batch_ordering (p : ProvState) (f : String) (op : FileOp) (pr : ParseResult)
    (r : StepResult) (evs : List Event)
    (h1 : handleFileEvent p f op pr = some r) (h2 : r.batch = some evs) :
    OrderedBatch evs := by
  cases op with
  | write =>
    cases pr with
    | readError =>
      obtain rfl := Option.some.inj h1
      simp at h2
    | decodeError =>
      obtain rfl := Option.some.inj h1
      simp at h2
    | ok rs =>
      unfold handleFileEvent at h1
      dsimp only at h1
      cases hg : generateEventsFromDiscoveryResponseV3 p f rs with
      | none => rw [hg] at h1; exact absurd h1 (by simp)
      | some v =>
        obtain ⟨p', events⟩ := v
        rw [hg] at h1
        dsimp only at h1
        obtain rfl := Option.some.inj h1
        unfold dispatch at h2
        by_cases hl : events.length > 0
        · rw [if_pos hl] at h2
          dsimp at h2
          obtain rfl := Option.some.inj h2
          exact genEDRV3_batch_ordered p f rs p' events hg
        · rw [if_neg hl] at h2
          simp at h2
  | remove =>
    unfold handleFileEvent at h1
    dsimp only at h1
    cases hs : p.state f with
    | none =>
      rw [hs] at h1
      obtain rfl := Option.some.inj h1
      simp at h2
    | some rmo =>
      rw [hs] at h1
      dsimp only at h1
      obtain rfl := Option.some.inj h1
      unfold dispatch at h2
      by_cases hl : ((generateEvents p f rmo none).2
          ++ ((generateEvents p f rmo none).1.eds f).map
            (fun u => (⟨.update, .upstream { u with nodes := [] }⟩ : Event))).length > 0
      · rw [if_pos hl] at h2
        dsimp at h2
        obtain rfl := Option.some.inj h2
        exact orderedBatch_append_updates _ _
          (fun u => Object.upstream { u with nodes := [] })
          (generateEvents_ordered p f rmo none)
      · rw [if_neg hl] at h2
        simp at h2

/-- Witness for C7: the batch of a concrete write pass is ordered. -/
theorem C7_batch_ordering_witness : OrderedBatch [⟨.add, .upstream svcA⟩] :=
  C7_batch_ordering emptyProv "f" .write (.ok [.cluster [svcA]]) c7R
    [⟨.add, .upstream svcA⟩] rfl rfl

/-- Claim C2 — counterexample. A source with prior EDS recording [svcX]
processes a pass whose EDS-only collection is [svcY]; afterwards the EDS
Cross-Reference Table entry is [svcX, svcY] — the prior entry plus the new
collection — not the
pass's collection [svcY] alone, refuting "replacing any prior recording". -/
theorem C2_counterexample :
    (generateEventsFromDiscoveryResponseV3 edsPriorProv "f"
        [.clusterLoadAssignment [svcY]]).map (fun r => r.1.eds "f") = some [svcX, svcY]
      ∧ [svcX, svcY] ≠ [svcY] := by
  exact ⟨rfl, by decide⟩

/-- Claim C2 — amended. For every pass whose EDS-only collection `U` is
non-empty, every member of `U` is emitted as an Update event in the pass's
batch, and the EDS Cross-Reference Table entry afterwards equals the prior
entry with `U` appended (accumulated), the map entry being overwritten with
that concatenation. -/
theorem C2_eds_accumulates (p : ProvState) (f : String) (rs : List Resource)
    (rm : Manifest) (U : List Upstream) (r : ProvState × List Event)
    (hproc : processResources rs ⟨[], []⟩ [] = some (rm, U)) (hne : U ≠ [])
    (hrun : generateEventsFromDiscoveryResponseV3 p f rs = some r) :
    r.1.eds f = p.eds f ++ U
      ∧ ∀ u ∈ U, (⟨.update, .upstream u⟩ : Event) ∈ r.2 := by
  unfold generateEventsFromDiscoveryResponseV3 at hrun
  rw [hproc] at hrun
  dsimp only at hrun
  rw [if_pos (List.length_pos.mpr hne)] at hrun
  obtain rfl := Option.some.inj hrun
  constructor
  · simp [mapUpdate, generateEvents_fst]
  · intro u hu
    exact List.mem_append_right _ (List.mem_map_of_mem _ hu)

/-- Witness for the amended C2 at a concrete pass. -/
theorem C2_eds_accumulates_witness :
    c2R.1.eds "f" = emptyProv.eds "f" ++ [svcY]
      ∧ ∀ u ∈ [svcY], (⟨.update, .upstream u⟩ : Event) ∈ c2R.2 :=
  C2_eds_accumulates emptyProv "f" [.clusterLoadAssignment [svcY]] ⟨[], []⟩ [svcY] c2R
    (by decide) (by decide) rfl

/-- Claim C8 — confirmed. Diffing a manifest (whose per-kind names are
unique, the Manifest invariant) against itself yields empty added, deleted
and updated sets; and every write pass whose computed diff (between the
stored manifest, present or absent, and the parsed one) is empty and whose
EDS-only collection is empty dispatches no batch at all: the handler
returns the updated state with batch `none`. -/
theorem C8_idempotent_empty_diff (m : Manifest) (p : ProvState) (f : String)
    (rs : List Resource) (rm : Manifest)
    (hr : (m.routes.map Route.name).Nodup) (hu : (m.upstreams.map Upstream.name).Nodup)
    (hproc : processResources rs ⟨[], []⟩ [] = some (rm, []))
    (hdiff : diffCount ((p.state f).join) (some rm) = 0) :
    m.DiffFrom m = (⟨[], []⟩, ⟨[], []⟩, ⟨[], []⟩)
      ∧ handleFileEvent p f .write (.ok rs) =
          some ⟨{ p with state := mapUpdate p.state f (some (some rm)) }, none⟩ := by
  refine ⟨?_, ?_⟩
  · unfold Manifest.DiffFrom
    rw [diffList_self Route.name m.routes hr, diffList_self Upstream.name m.upstreams hu]
  · unfold handleFileEvent generateEventsFromDiscoveryResponseV3
    dsimp only
    rw [hproc]
    dsimp only
    rw [generateEvents_eq, if_pos hdiff]
    simp [dispatch]

/-- Witness for C8: a concrete manifest reparsed identically yields an
empty diff and no batch. -/
theorem C8_idempotent_empty_diff_witness :
    c8M.DiffFrom c8M = (⟨[], []⟩, ⟨[], []⟩, ⟨[], []⟩)
      ∧ handleFileEvent c8P "f" .write (.ok [.routeConfiguration [rA], .cluster [svcA]]) =
          some ⟨{ c8P with state := mapUpdate c8P.state "f" (some (some c8M)) }, none⟩ :=
  C8_idempotent_empty_diff c8M c8P "f" [.routeConfiguration [rA], .cluster [svcA]] c8M
    (by decide) (by decide) (by decide) (by decide)

/-- Claim C9 — confirmed. Removing a source that has a State Table entry and
a non-empty EDS record dispatches a batch containing, for each recorded
EDS-only upstream, an Update event (type Update, not Delete) whose object is
that upstream with its node list cleared and all other fields unchanged; and
afterwards the EDS Cross-Reference Table entry for the source is gone
(reads as empty). -/
theorem C9_eds_reset_on_removal (p : ProvState) (f : String) (pr : ParseResult)
    (rmo : Option Manifest)
    (hstate : p.state f = some rmo) (heds : p.eds f ≠ []) :
    ∃ r evs, handleFileEvent p f .remove pr = some r ∧ r.batch = some evs
      ∧ (∀ u ∈ p.eds f, (⟨.update, .upstream { u with nodes := [] }⟩ : Event) ∈ evs)
      ∧ r.st.eds f = [] := by
  have hcomp := handleFileEvent_remove p f pr rmo hstate
  have hlen : ((generateEvents p f rmo none).2
      ++ (p.eds f).map (fun u => (⟨.update, .upstream { u with nodes := [] }⟩ : Event))).length > 0 := by
    rw [List.length_append, List.length_map]
    have := List.length_pos.mpr heds
    omega
  unfold dispatch at hcomp
  rw [if_pos hlen] at hcomp
  refine ⟨_, _, hcomp, rfl, ?_, ?_⟩
  · intro u hu
    exact List.mem_append_right _ (List.mem_map_of_mem _ hu)
  · simp [mapUpdate]

/-- Witness for C9 at a concrete removal. -/
theorem C9_eds_reset_on_removal_witness :
    ∃ r evs, handleFileEvent c9P "f" .remove ParseResult.readError = some r
      ∧ r.batch = some evs
      ∧ (∀ u ∈ c9P.eds "f", (⟨.update, .upstream { u with nodes := [] }⟩ : Event) ∈ evs)
      ∧ r.st.eds "f" = [] :=
  C9_eds_reset_on_removal c9P "f" .readError (some c8M) rfl (by decide)

end ApisixMeshAgent
